import Mathlib

/-!
Verification of `atomic.h`, a portable atomic `size_t` counter.

A shallow embedding of `src/atomic.h`.

* `size_t` values are natural numbers; `w` is the width of `size_t` in bits and every
  arithmetic result is reduced modulo `2 ^ w` explicitly (`wrap`).
* A counter is the storage the pointer argument `p` points to.  An operation takes the
  storage before the call and gives back the returned value (when the C function is not
  `void`) together with the storage after the call.
* The compiler and library primitives the header delegates to (`__sync_*` of GCC,
  `atomic_*` of `<stdatomic.h>`) are modelled by their documented single-threaded effect.
* The `#if / #elif / #else` chain of the header is modelled by `selectBranch`.
-/

namespace Atomic

/-! ## Unsigned arithmetic of width `w` -/

/-- Conversion of a mathematical integer to the unsigned type of width `w`:
the value is reduced modulo `2 ^ w` (C11 6.2.5p9, 6.3.1.3p2). -/
def wrap (w : Nat) (x : Int) : Nat :=
  (x % ((2 ^ w : Nat) : Int)).toNat

/-- The largest value of `size_t` (`SIZE_MAX`). -/
def SIZE_MAX (w : Nat) : Nat := 2 ^ w - 1

/-! ## The `#else` branch: GCC `__sync` built-ins (lines 104-135) -/

namespace Generic

/-- The struct of line 104: `typedef struct { volatile size_t value; } atomic_size_t;`. -/
structure atomic_size_t where
  value : Nat
  deriving DecidableEq, Repr

/-- GCC built-in `__sync_synchronize()`: a full memory barrier.  It orders memory accesses
and changes no memory content. -/
def __sync_synchronize (m : atomic_size_t) : atomic_size_t := m

/-- GCC built-in `__sync_fetch_and_add(ptr, value)`:
`{ tmp = *ptr; *ptr += value; return tmp; }` on an unsigned object of width `w`.
Returns `tmp` and the new content of `*ptr`. -/
def __sync_fetch_and_add (w : Nat) (cell : Nat) (value : Nat) : Nat × Nat :=
  (cell, wrap w ((cell : Int) + (value : Int)))

/-- GCC built-in `__sync_fetch_and_sub(ptr, value)`:
`{ tmp = *ptr; *ptr -= value; return tmp; }` on an unsigned object of width `w`. -/
def __sync_fetch_and_sub (w : Nat) (cell : Nat) (value : Nat) : Nat × Nat :=
  (cell, wrap w ((cell : Int) - (value : Int)))

/-- Lines 109-113: barrier, then `p->value = v`. -/
def atomic_size_init (p : atomic_size_t) (v : Nat) : atomic_size_t :=
  let p1 := __sync_synchronize p
  { p1 with value := v }

/-- Lines 115-119: barrier, then `return p->value`. -/
def atomic_size_load (p : atomic_size_t) : Nat × atomic_size_t :=
  let p1 := __sync_synchronize p
  (p1.value, p1)

/-- Lines 121-125: barrier, then `p->value = v`. -/
def atomic_size_store (p : atomic_size_t) (v : Nat) : atomic_size_t :=
  let p1 := __sync_synchronize p
  { p1 with value := v }

/-- Lines 127-130: `return __sync_fetch_and_add(&p->value, v);`. -/
def atomic_size_fetch_add (w : Nat) (p : atomic_size_t) (v : Nat) : Nat × atomic_size_t :=
  let r := __sync_fetch_and_add w p.value v
  (r.1, { p with value := r.2 })

/-- Lines 132-135: `return __sync_fetch_and_sub(&p->value, v);`. -/
def atomic_size_fetch_sub (w : Nat) (p : atomic_size_t) (v : Nat) : Nat × atomic_size_t :=
  let r := __sync_fetch_and_sub w p.value v
  (r.1, { p with value := r.2 })

end Generic

/-! ## The `#if` branch: C11 `<stdatomic.h>` (lines 52-59) -/

namespace Stdatomic

/-- Line 53: `typedef _Atomic size_t atomic_size_t;`.  The atomic object is modelled by
the `size_t` value it holds. -/
structure atomic_size_t where
  obj : Nat
  deriving DecidableEq, Repr

/-- Generic function `atomic_init(obj, value)` of C11 7.17.2.2: initialises the atomic object
to `value`. -/
def atomic_init (_a : atomic_size_t) (value : Nat) : atomic_size_t := ⟨value⟩

/-- Generic function `atomic_load(object)` of C11 7.17.7.2: returns the value pointed to. -/
def atomic_load (a : atomic_size_t) : Nat × atomic_size_t := (a.obj, a)

/-- Generic function `atomic_store(object, desired)` of C11 7.17.7.1: replaces the value. -/
def atomic_store (_a : atomic_size_t) (desired : Nat) : atomic_size_t := ⟨desired⟩

/-- Generic function `atomic_fetch_add(object, operand)` of C11 7.17.7.5 on an unsigned
object of width `w`: replaces the value by the sum and returns the value held before. -/
def atomic_fetch_add (w : Nat) (a : atomic_size_t) (operand : Nat) : Nat × atomic_size_t :=
  (a.obj, ⟨wrap w ((a.obj : Int) + (operand : Int))⟩)

/-- Generic function `atomic_fetch_sub(object, operand)` of C11 7.17.7.5 on an unsigned
object of width `w`: replaces the value by the difference and returns the value held
before. -/
def atomic_fetch_sub (w : Nat) (a : atomic_size_t) (operand : Nat) : Nat × atomic_size_t :=
  (a.obj, ⟨wrap w ((a.obj : Int) - (operand : Int))⟩)

/-- Line 55: `#define atomic_size_init(p, v) atomic_init(p, v)`. -/
def atomic_size_init (p : atomic_size_t) (v : Nat) : atomic_size_t := atomic_init p v

/-- Line 56: `#define atomic_size_load(p) atomic_load(p)`. -/
def atomic_size_load (p : atomic_size_t) : Nat × atomic_size_t := atomic_load p

/-- Line 57: `#define atomic_size_store(p, v) atomic_store(p, v)`. -/
def atomic_size_store (p : atomic_size_t) (v : Nat) : atomic_size_t := atomic_store p v

/-- Line 58: `#define atomic_size_fetch_add(p, v) atomic_fetch_add(p, v)`. -/
def atomic_size_fetch_add (w : Nat) (p : atomic_size_t) (v : Nat) : Nat × atomic_size_t :=
  atomic_fetch_add w p v

/-- Line 59: `#define atomic_size_fetch_sub(p, v) atomic_fetch_sub(p, v)`. -/
def atomic_size_fetch_sub (w : Nat) (p : atomic_size_t) (v : Nat) : Nat × atomic_size_t :=
  atomic_fetch_sub w p v

end Stdatomic

/-! ## Calls and straight-line client code -/

/-- One call of the API, with its `size_t` argument when it has one. -/
inductive Call where
  | init (v : Nat)
  | load
  | store (v : Nat)
  | fetch_add (v : Nat)
  | fetch_sub (v : Nat)
  deriving DecidableEq, Repr

/-- What a caller observes of one call: the returned `size_t` (`none` for the `void`
functions) and the value the counter holds afterwards. -/
abbrev Outcome := Option Nat × Nat

namespace Generic

/-- One call on the `#else` branch, observed from outside. -/
def call (w : Nat) (c : Call) (held : Nat) : Outcome :=
  match c with
  | .init v => (none, (atomic_size_init ⟨held⟩ v).value)
  | .load => let r := atomic_size_load ⟨held⟩; (some r.1, r.2.value)
  | .store v => (none, (atomic_size_store ⟨held⟩ v).value)
  | .fetch_add v => let r := atomic_size_fetch_add w ⟨held⟩ v; (some r.1, r.2.value)
  | .fetch_sub v => let r := atomic_size_fetch_sub w ⟨held⟩ v; (some r.1, r.2.value)

end Generic

namespace Stdatomic

/-- One call on the C11 branch, observed from outside. -/
def call (w : Nat) (c : Call) (held : Nat) : Outcome :=
  match c with
  | .init v => (none, (atomic_size_init ⟨held⟩ v).obj)
  | .load => let r := atomic_size_load ⟨held⟩; (some r.1, r.2.obj)
  | .store v => (none, (atomic_size_store ⟨held⟩ v).obj)
  | .fetch_add v => let r := atomic_size_fetch_add w ⟨held⟩ v; (some r.1, r.2.obj)
  | .fetch_sub v => let r := atomic_size_fetch_sub w ⟨held⟩ v; (some r.1, r.2.obj)

end Stdatomic

/-- A single thread performing the calls `cs` in program order with the implementation
`f`, starting from a counter holding `held`: the list of returned values, in order, and the
final value of the counter. -/
def runCalls (f : Call → Nat → Outcome) : List Call → Nat → List (Option Nat) × Nat
  | [], held => ([], held)
  | c :: cs, held =>
    let o := f c held
    let rest := runCalls f cs o.2
    (o.1 :: rest.1, rest.2)

/-! ## Conditional compilation (lines 51, 61, 103, 136) -/

/-- The predefined macros the `#if` chain of the header looks at. -/
structure BuildConfig where
  /-- The value of `__STDC_VERSION__`, or `none` when the macro is not defined (then it is
  replaced by `0` inside `#if`, C11 6.10.1p4). -/
  STDC_VERSION : Option Nat
  /-- Whether `__STDC_NO_ATOMICS__` is defined. -/
  STDC_NO_ATOMICS : Bool
  /-- Whether `_WIN32` is defined. -/
  WIN32 : Bool
  deriving DecidableEq, Repr

/-- The three groups of the `#if / #elif / #else` chain. -/
inductive Branch where
  /-- Lines 52-59. -/
  | stdatomic
  /-- Lines 62-102: one line comment and one block comment. -/
  | win32
  /-- Lines 104-135. -/
  | generic
  deriving DecidableEq, Repr

/-- Line 51: `__STDC_VERSION__ >= 201112L && !defined(__STDC_NO_ATOMICS__)`. -/
def c11_atomics (c : BuildConfig) : Bool :=
  decide (c.STDC_VERSION.getD 0 ≥ 201112) && !c.STDC_NO_ATOMICS

/-- The group of the chain that is kept: the first one whose condition holds
(`#if` line 51, `#elif defined(_WIN32)` line 61, `#else` line 103). -/
def selectBranch (c : BuildConfig) : Branch :=
  if c11_atomics c then Branch.stdatomic
  else if c.WIN32 then Branch.win32
  else Branch.generic

/-- The identifiers a group declares.  The group of `_WIN32` consists of comments only
(lines 62-102) and declares nothing. -/
def declared : Branch → List String
  | .stdatomic => ["atomic_size_t", "atomic_size_init", "atomic_size_load",
      "atomic_size_store", "atomic_size_fetch_add", "atomic_size_fetch_sub"]
  | .win32 => []
  | .generic => ["atomic_size_t", "atomic_size_init", "atomic_size_load",
      "atomic_size_store", "atomic_size_fetch_add", "atomic_size_fetch_sub"]

/-- The implementation of the five operations a group provides, when it provides one. -/
def provided (w : Nat) : Branch → Option (Call → Nat → Outcome)
  | .stdatomic => some (Stdatomic.call w)
  | .win32 => none
  | .generic => some (Generic.call w)

/-- The implementation of the five operations the header gives under a build
configuration. -/
def header (w : Nat) (c : BuildConfig) : Option (Call → Nat → Outcome) :=
  provided w (selectBranch c)

/-! ## The contract of section 4.1 of the specification -/

namespace Spec

/-- The specification of the five operations, written from its words:
initialize and store put the given value, load returns the current value,
fetchAdd and fetchSub return the previous value and store `previous + delta`
and `previous - delta` with unsigned wraparound at the word width. -/
def contract (w : Nat) (c : Call) (previous : Nat) : Outcome :=
  match c with
  | .init initialValue => (none, initialValue)
  | .load => (some previous, previous)
  | .store newValue => (none, newValue)
  | .fetch_add delta => (some previous, (previous + delta) % 2 ^ w)
  | .fetch_sub delta => (some previous, (previous + (2 ^ w - delta % 2 ^ w)) % 2 ^ w)

end Spec

/-! ## Arithmetic lemmas on `wrap` -/

theorem two_pow_cast_pos (w : Nat) : (0 : Int) < ((2 ^ w : Nat) : Int) := by
  have h : 0 < 2 ^ w := Nat.pos_pow_of_pos w (by decide)
  exact_mod_cast h

/-- The integer value of a wrapped result is the remainder modulo `2 ^ w`. -/
theorem wrap_cast (w : Nat) (x : Int) : ((wrap w x : Nat) : Int) = x % ((2 ^ w : Nat) : Int) := by
  unfold wrap
  exact Int.toNat_of_nonneg (Int.emod_nonneg x (two_pow_cast_pos w).ne')

/-- A wrapped result is a word. -/
theorem wrap_lt (w : Nat) (x : Int) : wrap w x < 2 ^ w := by
  have h := Int.emod_lt_of_pos x (two_pow_cast_pos w)
  rw [← wrap_cast] at h
  exact_mod_cast h

/-- Wrapped addition of two words is addition modulo `2 ^ w`. -/
theorem wrap_add (w a b : Nat) : wrap w ((a : Int) + (b : Int)) = (a + b) % 2 ^ w := by
  have h := wrap_cast w ((a : Int) + (b : Int))
  have h2 : ((a : Int) + (b : Int)) % ((2 ^ w : Nat) : Int) = (((a + b) % 2 ^ w : Nat) : Int) := by
    push_cast
    rfl
  rw [h2] at h
  exact_mod_cast h

/-- Wrapped subtraction, in natural numbers: add the complement of the subtrahend. -/
theorem wrap_sub (w a b : Nat) :
    wrap w ((a : Int) - (b : Int)) = (a + (2 ^ w - b % 2 ^ w)) % 2 ^ w := by
  have hpos : 0 < 2 ^ w := Nat.pos_pow_of_pos w (by decide)
  have hle : b % 2 ^ w ≤ 2 ^ w := (Nat.mod_lt b hpos).le
  have h := wrap_cast w ((a : Int) - (b : Int))
  have h2 : ((a : Int) - (b : Int)) % ((2 ^ w : Nat) : Int)
      = (((a + (2 ^ w - b % 2 ^ w)) % 2 ^ w : Nat) : Int) := by
    rw [Int.natCast_mod, Int.emod_eq_emod_iff_emod_sub_eq_zero]
    apply Int.emod_eq_zero_of_dvd
    refine ⟨-((b : Int) / ((2 ^ w : Nat) : Int)) - 1, ?_⟩
    rw [Nat.cast_add, Nat.cast_sub hle, Int.natCast_mod]
    linear_combination (1 : Int) * (Int.emod_add_ediv (b : Int) ((2 ^ w : Nat) : Int))
  rw [h2] at h
  exact_mod_cast h

/-- Subtracting what was added gives back a word unchanged. -/
theorem wrap_add_sub (w v d : Nat) (hv : v < 2 ^ w) :
    wrap w (((wrap w ((v : Int) + (d : Int)) : Nat) : Int) - (d : Int)) = v := by
  have hv2 : (v : Int) % ((2 ^ w : Nat) : Int) = (v : Int) := by
    apply Int.emod_eq_of_lt (Int.natCast_nonneg v)
    exact_mod_cast hv
  have h : ((wrap w (((wrap w ((v : Int) + (d : Int)) : Nat) : Int) - (d : Int)) : Nat) : Int)
      = (v : Int) := by
    rw [wrap_cast, wrap_cast,
      (Int.emod_sub_cancel_right (d : Int)).mpr (Int.emod_emod ((v : Int) + (d : Int)) _),
      add_sub_cancel_right, hv2]
  exact_mod_cast h

/-- Both implementations return the held value on `load` and leave it in place, so any
number of loads in a row gives the same value each time. -/
theorem runCalls_replicate_load (f : Call → Nat → Outcome) (v : Nat)
    (hf : f Call.load v = (some v, v)) (n : Nat) :
    runCalls f (List.replicate n Call.load) v = (List.replicate n (some v), v) := by
  induction n with
  | zero => rfl
  | succ k ih => simp [List.replicate_succ, runCalls, hf, ih]

/-! ## The operations one by one -/

/-- Claim C1. On both implementations `atomic_size_fetch_add(p, delta)` returns the value
`prev` the counter held and leaves it holding `(prev + delta) mod 2^w`, which the next
`atomic_size_load(p)` returns; on a counter holding `SIZE_MAX = 2^w - 1`, adding `1` returns
`SIZE_MAX` and the next load returns `0`. -/
theorem fetch_add_contract (w prev delta : Nat) :
    ((Generic.atomic_size_fetch_add w ⟨prev⟩ delta).1 = prev
      ∧ (Generic.atomic_size_fetch_add w ⟨prev⟩ delta).2 = ⟨(prev + delta) % 2 ^ w⟩
      ∧ (Generic.atomic_size_load (Generic.atomic_size_fetch_add w ⟨prev⟩ delta).2).1
          = (prev + delta) % 2 ^ w)
    ∧ ((Stdatomic.atomic_size_fetch_add w ⟨prev⟩ delta).1 = prev
      ∧ (Stdatomic.atomic_size_fetch_add w ⟨prev⟩ delta).2 = ⟨(prev + delta) % 2 ^ w⟩
      ∧ (Stdatomic.atomic_size_load (Stdatomic.atomic_size_fetch_add w ⟨prev⟩ delta).2).1
          = (prev + delta) % 2 ^ w)
    ∧ ((Generic.atomic_size_fetch_add w ⟨SIZE_MAX w⟩ 1).1 = SIZE_MAX w
      ∧ (Generic.atomic_size_load (Generic.atomic_size_fetch_add w ⟨SIZE_MAX w⟩ 1).2).1 = 0)
    ∧ ((Stdatomic.atomic_size_fetch_add w ⟨SIZE_MAX w⟩ 1).1 = SIZE_MAX w
      ∧ (Stdatomic.atomic_size_load (Stdatomic.atomic_size_fetch_add w ⟨SIZE_MAX w⟩ 1).2).1 = 0) := by
  have hpos : 0 < 2 ^ w := Nat.pos_pow_of_pos w (by decide)
  have hmax : (SIZE_MAX w + 1) % 2 ^ w = 0 := by
    unfold SIZE_MAX
    rw [Nat.sub_add_cancel hpos, Nat.mod_self]
  have hmax2 : wrap w ((SIZE_MAX w : Int) + 1) = 0 := by
    have h := wrap_add w (SIZE_MAX w) 1
    rw [hmax] at h
    exact_mod_cast h
  refine ⟨⟨rfl, ?_, ?_⟩, ⟨rfl, ?_, ?_⟩, ⟨rfl, ?_⟩, ⟨rfl, ?_⟩⟩
  · simp [Generic.atomic_size_fetch_add, Generic.__sync_fetch_and_add, wrap_add]
  · simp [Generic.atomic_size_fetch_add, Generic.__sync_fetch_and_add, Generic.atomic_size_load,
      Generic.__sync_synchronize, wrap_add]
  · simp [Stdatomic.atomic_size_fetch_add, Stdatomic.atomic_fetch_add, wrap_add]
  · simp [Stdatomic.atomic_size_fetch_add, Stdatomic.atomic_fetch_add,
      Stdatomic.atomic_size_load, Stdatomic.atomic_load, wrap_add]
  · simp [Generic.atomic_size_fetch_add, Generic.__sync_fetch_and_add, Generic.atomic_size_load,
      Generic.__sync_synchronize, hmax2]
  · simp [Stdatomic.atomic_size_fetch_add, Stdatomic.atomic_fetch_add,
      Stdatomic.atomic_size_load, Stdatomic.atomic_load, hmax2]

/-- Claim C2. On both implementations `atomic_size_fetch_sub(p, delta)` returns the value
`prev` the counter held and leaves it holding `(prev - delta) mod 2^w` (the remainder of the
integer difference), which the next `atomic_size_load(p)` returns; on a counter holding
`0`, subtracting `1` returns `0` and the next load returns `SIZE_MAX = 2^w - 1`. -/
theorem fetch_sub_contract (w prev delta : Nat) :
    ((Generic.atomic_size_fetch_sub w ⟨prev⟩ delta).1 = prev
      ∧ (((Generic.atomic_size_fetch_sub w ⟨prev⟩ delta).2.value : Nat) : Int)
          = ((prev : Int) - (delta : Int)) % (2 : Int) ^ w
      ∧ (((Generic.atomic_size_load (Generic.atomic_size_fetch_sub w ⟨prev⟩ delta).2).1 : Nat) : Int)
          = ((prev : Int) - (delta : Int)) % (2 : Int) ^ w)
    ∧ ((Stdatomic.atomic_size_fetch_sub w ⟨prev⟩ delta).1 = prev
      ∧ (((Stdatomic.atomic_size_fetch_sub w ⟨prev⟩ delta).2.obj : Nat) : Int)
          = ((prev : Int) - (delta : Int)) % (2 : Int) ^ w
      ∧ (((Stdatomic.atomic_size_load (Stdatomic.atomic_size_fetch_sub w ⟨prev⟩ delta).2).1 : Nat) : Int)
          = ((prev : Int) - (delta : Int)) % (2 : Int) ^ w)
    ∧ ((Generic.atomic_size_fetch_sub w ⟨0⟩ 1).1 = 0
      ∧ (Generic.atomic_size_load (Generic.atomic_size_fetch_sub w ⟨0⟩ 1).2).1 = SIZE_MAX w)
    ∧ ((Stdatomic.atomic_size_fetch_sub w ⟨0⟩ 1).1 = 0
      ∧ (Stdatomic.atomic_size_load (Stdatomic.atomic_size_fetch_sub w ⟨0⟩ 1).2).1 = SIZE_MAX w) := by
  have hpos : 0 < 2 ^ w := Nat.pos_pow_of_pos w (by decide)
  have hc : ∀ x : Int, ((wrap w x : Nat) : Int) = x % (2 : Int) ^ w := by
    intro x
    rw [wrap_cast]
    push_cast
    rfl
  have hmax : wrap w ((0 : Int) - 1) = SIZE_MAX w := by
    have h := wrap_sub w 0 1
    have h1 : (0 + (2 ^ w - 1 % 2 ^ w)) % 2 ^ w = 2 ^ w - 1 := by
      rcases Nat.lt_or_ge 1 (2 ^ w) with h2 | h2
      · rw [Nat.mod_eq_of_lt h2, Nat.zero_add, Nat.mod_eq_of_lt (by omega)]
      · have h3 : 2 ^ w = 1 := by omega
        simp [h3]
    rw [h1] at h
    unfold SIZE_MAX
    exact_mod_cast h
  refine ⟨⟨rfl, ?_, ?_⟩, ⟨rfl, ?_, ?_⟩, ⟨rfl, ?_⟩, ⟨rfl, ?_⟩⟩
  · exact hc _
  · exact hc _
  · exact hc _
  · exact hc _
  · simpa [Generic.atomic_size_fetch_sub, Generic.__sync_fetch_and_sub, Generic.atomic_size_load,
      Generic.__sync_synchronize] using hmax
  · simpa [Stdatomic.atomic_size_fetch_sub, Stdatomic.atomic_fetch_sub,
      Stdatomic.atomic_size_load, Stdatomic.atomic_load] using hmax

/-- Claim C3. On both implementations, after `atomic_size_init(p, v)` on any storage,
whatever it held before, `atomic_size_load(p)` returns `v`. -/
theorem load_after_init (before v : Nat) :
    (Generic.atomic_size_load (Generic.atomic_size_init ⟨before⟩ v)).1 = v
    ∧ (Stdatomic.atomic_size_load (Stdatomic.atomic_size_init ⟨before⟩ v)).1 = v :=
  ⟨rfl, rfl⟩

/-- Claim C4. Single-threaded round trip on both implementations: for every word `v` held
by the counter and every `d`, also when `v + d` overflows, `atomic_size_fetch_add(p, d)`
followed by `atomic_size_fetch_sub(p, d)` leaves the counter holding `v` again. -/
theorem fetch_add_then_fetch_sub (w v d : Nat) (hv : v < 2 ^ w) :
    (Generic.atomic_size_fetch_sub w (Generic.atomic_size_fetch_add w ⟨v⟩ d).2 d).2 = ⟨v⟩
    ∧ (Stdatomic.atomic_size_fetch_sub w (Stdatomic.atomic_size_fetch_add w ⟨v⟩ d).2 d).2
        = ⟨v⟩ := by
  constructor
  · simp [Generic.atomic_size_fetch_sub, Generic.__sync_fetch_and_sub,
      Generic.atomic_size_fetch_add, Generic.__sync_fetch_and_add, wrap_add_sub w v d hv]
  · simp [Stdatomic.atomic_size_fetch_sub, Stdatomic.atomic_fetch_sub,
      Stdatomic.atomic_size_fetch_add, Stdatomic.atomic_fetch_add, wrap_add_sub w v d hv]

/-- Witness of claim C4 on a 64-bit word, with `v + d` overflowing. -/
theorem fetch_add_then_fetch_sub_witness :
    (Generic.atomic_size_fetch_sub 64
        (Generic.atomic_size_fetch_add 64 ⟨2 ^ 64 - 1⟩ 5).2 5).2 = ⟨2 ^ 64 - 1⟩
    ∧ (Stdatomic.atomic_size_fetch_sub 64
        (Stdatomic.atomic_size_fetch_add 64 ⟨2 ^ 64 - 1⟩ 5).2 5).2 = ⟨2 ^ 64 - 1⟩ :=
  fetch_add_then_fetch_sub 64 (2 ^ 64 - 1) 5 (by decide)

/-- Claim C5. Last write wins on both implementations: after `atomic_size_store(p, v1)`
and then `atomic_size_store(p, v2)`, `atomic_size_load(p)` returns `v2`, whatever `v1` and
the value held before were. -/
theorem load_after_two_stores (before v1 v2 : Nat) :
    (Generic.atomic_size_load
        (Generic.atomic_size_store (Generic.atomic_size_store ⟨before⟩ v1) v2)).1 = v2
    ∧ (Stdatomic.atomic_size_load
        (Stdatomic.atomic_size_store (Stdatomic.atomic_size_store ⟨before⟩ v1) v2)).1 = v2 :=
  ⟨rfl, rfl⟩

/-- Claim C6. The scenario on both implementations, for every word width `w` wide
enough to hold the literals (`5 ≤ w`): starting from any storage, `atomic_size_init(c, 10)`,
then `atomic_size_fetch_add(c, 5)` returns `10`, `atomic_size_load(c)` returns `15`,
`atomic_size_fetch_sub(c, 20)` returns `15` and `atomic_size_load(c)` returns
`SIZE_MAX - 4`, with `SIZE_MAX = 2^w - 1`. -/
theorem scenario_init_add_sub (w before : Nat) (hw : 5 ≤ w) :
    runCalls (Generic.call w)
        [Call.init 10, Call.fetch_add 5, Call.load, Call.fetch_sub 20, Call.load] before
      = ([none, some 10, some 15, some 15, some (SIZE_MAX w - 4)], SIZE_MAX w - 4)
    ∧ runCalls (Stdatomic.call w)
        [Call.init 10, Call.fetch_add 5, Call.load, Call.fetch_sub 20, Call.load] before
      = ([none, some 10, some 15, some 15, some (SIZE_MAX w - 4)], SIZE_MAX w - 4) := by
  have hn : 2 ^ 5 ≤ 2 ^ w := Nat.pow_le_pow_right (by decide) hw
  have hadd : wrap w 15 = 15 := by
    have h := wrap_add w 10 5
    rw [Nat.mod_eq_of_lt (by omega)] at h
    exact_mod_cast h
  have hsub : wrap w (15 - 20) = SIZE_MAX w - 4 := by
    have h := wrap_sub w 15 20
    rw [Nat.mod_eq_of_lt (show 20 < 2 ^ w by omega),
      Nat.mod_eq_of_lt (show 15 + (2 ^ w - 20) < 2 ^ w by omega)] at h
    have h2 : wrap w ((15 : Int) - 20) = 15 + (2 ^ w - 20) := by exact_mod_cast h
    rw [h2]
    unfold SIZE_MAX
    omega
  have hsub2 : wrap w (-5) = SIZE_MAX w - 4 := by
    rw [← hsub]
    norm_num
  constructor
  · simp [runCalls, Generic.call, Generic.atomic_size_init, Generic.atomic_size_load,
      Generic.atomic_size_fetch_add, Generic.atomic_size_fetch_sub,
      Generic.__sync_synchronize, Generic.__sync_fetch_and_add, Generic.__sync_fetch_and_sub,
      hadd, hsub2]
  · simp [runCalls, Stdatomic.call, Stdatomic.atomic_size_init, Stdatomic.atomic_size_load,
      Stdatomic.atomic_size_fetch_add, Stdatomic.atomic_size_fetch_sub,
      Stdatomic.atomic_init, Stdatomic.atomic_load, Stdatomic.atomic_fetch_add,
      Stdatomic.atomic_fetch_sub, hadd, hsub2]

/-- Witness of claim C6 on a 64-bit word, the storage holding `12345` before `init`. -/
theorem scenario_init_add_sub_witness :
    5 ≤ 64
    ∧ runCalls (Generic.call 64)
        [Call.init 10, Call.fetch_add 5, Call.load, Call.fetch_sub 20, Call.load] 12345
      = ([none, some 10, some 15, some 15, some (SIZE_MAX 64 - 4)], SIZE_MAX 64 - 4)
    ∧ runCalls (Stdatomic.call 64)
        [Call.init 10, Call.fetch_add 5, Call.load, Call.fetch_sub 20, Call.load] 12345
      = ([none, some 10, some 15, some 15, some (SIZE_MAX 64 - 4)], SIZE_MAX 64 - 4) :=
  ⟨by decide, scenario_init_add_sub 64 12345 (by decide)⟩

/-- Claim C10. On both implementations `atomic_size_load` is a pure read: on a counter
holding `v` it returns `v` and leaves the counter holding `v`, so `n` loads in a row, with
no other call in between, return `v` each time and the counter still holds `v`. -/
theorem load_is_pure_read (w v n : Nat) :
    Generic.atomic_size_load ⟨v⟩ = (v, ⟨v⟩)
    ∧ Stdatomic.atomic_size_load ⟨v⟩ = (v, ⟨v⟩)
    ∧ runCalls (Generic.call w) (List.replicate n Call.load) v
        = (List.replicate n (some v), v)
    ∧ runCalls (Stdatomic.call w) (List.replicate n Call.load) v
        = (List.replicate n (some v), v) :=
  ⟨rfl, rfl, runCalls_replicate_load (Generic.call w) v rfl n,
    runCalls_replicate_load (Stdatomic.call w) v rfl n⟩

/-! ## The build paths -/

/-- Each implementation the header can provide meets the contract of the specification. -/
theorem provided_meets_contract (w : Nat) (b : Branch) (f : Call → Nat → Outcome)
    (hf : provided w b = some f) (c : Call) (prev : Nat) :
    f c prev = Spec.contract w c prev := by
  cases b with
  | stdatomic =>
    simp only [provided, Option.some.injEq] at hf
    subst hf
    cases c <;>
      simp [Stdatomic.call, Spec.contract, Stdatomic.atomic_size_init,
        Stdatomic.atomic_size_load, Stdatomic.atomic_size_store,
        Stdatomic.atomic_size_fetch_add, Stdatomic.atomic_size_fetch_sub,
        Stdatomic.atomic_init, Stdatomic.atomic_load, Stdatomic.atomic_store,
        Stdatomic.atomic_fetch_add, Stdatomic.atomic_fetch_sub, wrap_add, wrap_sub]
  | win32 => simp [provided] at hf
  | generic =>
    simp only [provided, Option.some.injEq] at hf
    subst hf
    cases c <;>
      simp [Generic.call, Spec.contract, Generic.atomic_size_init,
        Generic.atomic_size_load, Generic.atomic_size_store,
        Generic.atomic_size_fetch_add, Generic.atomic_size_fetch_sub,
        Generic.__sync_synchronize, Generic.__sync_fetch_and_add,
        Generic.__sync_fetch_and_sub, wrap_add, wrap_sub]

/-- Claim C8, as stated, fails: with `_WIN32` defined and no C11 atomics (here
`__STDC_VERSION__` undefined) the kept group is the one of `#elif defined(_WIN32)`, whose
text is commented out, so the header provides none of the five operations on that path. -/
theorem win32_path_provides_nothing :
    selectBranch { STDC_VERSION := none, STDC_NO_ATOMICS := false, WIN32 := true }
        = Branch.win32
    ∧ (header 64 { STDC_VERSION := none, STDC_NO_ATOMICS := false, WIN32 := true }).isSome
        = false := by
  decide

/-- Claim C8, amended. Whichever build path that provides the operations is selected (the
C11 path or the compiler-builtin fallback path), the five operations have the same
single-threaded semantics: for every starting counter value and every argument the two
paths return the same value and leave the counter holding the same value, and that value
is the one the contract of the specification gives (previous value returned, wraparound
arithmetic). -/
theorem provided_paths_agree (w : Nat) (c1 c2 : BuildConfig) (f1 f2 : Call → Nat → Outcome)
    (h1 : header w c1 = some f1) (h2 : header w c2 = some f2) (c : Call) (prev : Nat) :
    f1 c prev = f2 c prev ∧ f1 c prev = Spec.contract w c prev := by
  have e1 := provided_meets_contract w (selectBranch c1) f1 h1 c prev
  have e2 := provided_meets_contract w (selectBranch c2) f2 h2 c prev
  exact ⟨e1.trans e2.symm, e1⟩

/-- Witness of claim C8 amended: a C11 build against a build without C11 atomics and
without `_WIN32`, 64-bit word, `fetch_sub(c, 20)` on a counter holding `15`. -/
theorem provided_paths_agree_witness :
    header 64 { STDC_VERSION := some 201112, STDC_NO_ATOMICS := false, WIN32 := false }
        = some (Stdatomic.call 64)
    ∧ header 64 { STDC_VERSION := some 199901, STDC_NO_ATOMICS := false, WIN32 := false }
        = some (Generic.call 64)
    ∧ Stdatomic.call 64 (Call.fetch_sub 20) 15 = Generic.call 64 (Call.fetch_sub 20) 15
    ∧ Stdatomic.call 64 (Call.fetch_sub 20) 15 = Spec.contract 64 (Call.fetch_sub 20) 15 :=
  ⟨rfl, rfl,
    provided_paths_agree 64
      { STDC_VERSION := some 201112, STDC_NO_ATOMICS := false, WIN32 := false }
      { STDC_VERSION := some 199901, STDC_NO_ATOMICS := false, WIN32 := false }
      (Stdatomic.call 64) (Generic.call 64) rfl rfl (Call.fetch_sub 20) 15⟩

/-- Claim C9, as stated, fails: in a build without C11 atomics where `_WIN32` is defined
the header does not select the group of `#else`; it keeps the group of
`#elif defined(_WIN32)`, which declares nothing. -/
theorem win32_build_not_generic :
    c11_atomics { STDC_VERSION := some 199901, STDC_NO_ATOMICS := false, WIN32 := true }
        = false
    ∧ selectBranch { STDC_VERSION := some 199901, STDC_NO_ATOMICS := false, WIN32 := true }
        ≠ Branch.generic
    ∧ declared
        (selectBranch { STDC_VERSION := some 199901, STDC_NO_ATOMICS := false, WIN32 := true })
        = [] := by
  decide

/-- Claim C9, amended. Path selection: for every build configuration in which C11 atomics
are not available (the condition of line 51 is false) and `_WIN32` is not defined, the
header selects the generic compiler-builtin path: `atomic_size_t` and the five operations
are the ones of the `__sync`-based `#else` group. -/
theorem generic_path_selected (w : Nat) (c : BuildConfig)
    (hc11 : c11_atomics c = false) (hwin : c.WIN32 = false) :
    selectBranch c = Branch.generic
    ∧ declared (selectBranch c) = ["atomic_size_t", "atomic_size_init", "atomic_size_load",
        "atomic_size_store", "atomic_size_fetch_add", "atomic_size_fetch_sub"]
    ∧ header w c = some (Generic.call w) := by
  have hsel : selectBranch c = Branch.generic := by
    simp [selectBranch, hc11, hwin]
  refine ⟨hsel, ?_, ?_⟩
  · rw [hsel]
    rfl
  · simp [header, hsel, provided]

/-- Witness of claim C9 amended: a C11 compiler that defines `__STDC_NO_ATOMICS__`, not on
Windows, 64-bit word. -/
theorem generic_path_selected_witness :
    c11_atomics { STDC_VERSION := some 201112, STDC_NO_ATOMICS := true, WIN32 := false } = false
    ∧ selectBranch { STDC_VERSION := some 201112, STDC_NO_ATOMICS := true, WIN32 := false }
        = Branch.generic
    ∧ declared
        (selectBranch { STDC_VERSION := some 201112, STDC_NO_ATOMICS := true, WIN32 := false })
        = ["atomic_size_t", "atomic_size_init", "atomic_size_load",
          "atomic_size_store", "atomic_size_fetch_add", "atomic_size_fetch_sub"]
    ∧ header 64 { STDC_VERSION := some 201112, STDC_NO_ATOMICS := true, WIN32 := false }
        = some (Generic.call 64) :=
  ⟨by decide,
    generic_path_selected 64
      { STDC_VERSION := some 201112, STDC_NO_ATOMICS := true, WIN32 := false }
      (by decide) rfl⟩

end Atomic
